import Mathlib

/-!
Verification of the Google-Mesh core subsystem against its specification.

The definitions below are a shallow embedding of the JavaScript services:
`NearbyConnectionsService` (mesh router), `OfflineStorageService`
(persistent outbox over IndexedDB with a LocalStorage fallback),
`SyncManager` (sync coordinator) and the Gemini request queue
(rate-limited dispatcher).  Time is passed explicitly (the JS code reads
`Date.now()`), callbacks are replaced by observable effect records, and
the browser storage backends are modelled as explicit state.
-/

namespace GoogleMesh

/-! ## Mesh router (`NearbyConnectionsService`) -/

namespace Mesh

/-- A wire message as posted on the broadcast medium: the object
`{type, payload, messageId, hops, timestamp, senderId}` (plus the
`forwardedBy` field added when relaying). The opaque payload is modelled
as a string. -/
structure WireMessage where
  mtype : String
  payload : String
  messageId : String
  hops : Nat
  timestamp : Nat
  senderId : String
  forwardedBy : Option String := none
deriving DecidableEq, Repr

/-- An entry of the router's `messageCache`: the value stored under a
`messageId` key (`{timestamp, hops, type, payload}`). -/
structure CacheEntry where
  timestamp : Nat
  hops : Nat
  mtype : String
  payload : String
deriving DecidableEq, Repr

/-- The router state: device id, the `maxHops` and `ttl` configuration
fields, and the dedup cache (a map from messageId to entry, modelled as
an association list with the newest entry at the head). -/
structure MeshState where
  deviceId : String
  maxHops : Nat
  ttl : Nat
  messageCache : List (String × CacheEntry)
deriving DecidableEq, Repr

/-- A fresh router as built by the constructor: empty cache,
`maxHops = 5`, `ttl = 300000`. -/
def initMesh (deviceId : String) : MeshState :=
  { deviceId := deviceId, maxHops := 5, ttl := 300000, messageCache := [] }

/-- `this.messageCache.has(messageId)`. -/
def cacheHas (s : MeshState) (mid : String) : Bool :=
  s.messageCache.any (fun p => p.1 == mid)

/-- Observable effects of one `handleIncomingMessage` call: whether the
registered handlers were dispatched to, and the forward (if any) that was
scheduled by `forwardMessage`. -/
structure HandleResult where
  fired : Bool
  forward : Option WireMessage
deriving DecidableEq, Repr

/-- `forwardMessage(originalData)`: increments the hop count and, unless
the new hop count has reached `maxHops`, schedules a rebroadcast of the
data with the incremented count and `forwardedBy` set to this device. -/
def forwardMessage (s : MeshState) (data : WireMessage) : Option WireMessage :=
  let newHops := data.hops + 1
  if s.maxHops ≤ newHops then none
  else some { data with hops := newHops, forwardedBy := some s.deviceId }

/-- `handleIncomingMessage(data)` at time `now`: reject own messages,
duplicates, messages at or above `maxHops`, and expired messages; else
cache the message, dispatch to the handlers, and schedule a forward. -/
def handleIncomingMessage (s : MeshState) (now : Nat) (data : WireMessage) :
    MeshState × HandleResult :=
  if data.senderId == s.deviceId then (s, ⟨false, none⟩)
  else if cacheHas s data.messageId then (s, ⟨false, none⟩)
  else if s.maxHops ≤ data.hops then (s, ⟨false, none⟩)
  else if s.ttl < now - data.timestamp then (s, ⟨false, none⟩)
  else
    let entry : CacheEntry :=
      { timestamp := data.timestamp, hops := data.hops,
        mtype := data.mtype, payload := data.payload }
    let s' := { s with messageCache := (data.messageId, entry) :: s.messageCache }
    (s', ⟨true, forwardMessage s data⟩)

/-- `broadcastSOS(sosData)` at time `now`: builds the wire message with
`hops = 0`, `timestamp = now`, a fresh `sos_`-prefixed messageId, posts
it to the medium, and returns the messageId.  The state is returned
unchanged: the source does not touch `messageCache` here. -/
def broadcastSOS (s : MeshState) (now : Nat) (sosData : String) :
    MeshState × WireMessage × String :=
  let mid := "sos_" ++ s.deviceId ++ "_" ++ toString now
  let m : WireMessage :=
    { mtype := "SOS_BROADCAST", payload := sosData, messageId := mid,
      hops := 0, timestamp := now, senderId := s.deviceId }
  (s, m, mid)

/-- `broadcastChat(chatData)` at time `now`; same shape as `broadcastSOS`
with a `chat_` messageId and type `CHAT_BROADCAST`. -/
def broadcastChat (s : MeshState) (now : Nat) (chatData : String) :
    MeshState × WireMessage × String :=
  let mid := "chat_" ++ s.deviceId ++ "_" ++ toString now
  let m : WireMessage :=
    { mtype := "CHAT_BROADCAST", payload := chatData, messageId := mid,
      hops := 0, timestamp := now, senderId := s.deviceId }
  (s, m, mid)

end Mesh

/-! ## Persistent outbox (`OfflineStorageService`) -/

namespace Outbox

/-- An outbox record as built by `storeMessage`:
`{messageId, type, payload, timestamp, synced, retryCount}` plus the
`syncedAt` field set by `markAsSynced`. -/
structure OutboxRecord where
  messageId : String
  mtype : String
  payload : String
  timestamp : Nat
  synced : Bool
  retryCount : Nat
  syncedAt : Option Nat := none
deriving DecidableEq, Repr

/-- The record `storeMessage` creates: `synced: false`, `retryCount: 0`,
`timestamp: Date.now()`. -/
def mkRecord (mid mtype payload : String) (now : Nat) : OutboxRecord :=
  { messageId := mid, mtype := mtype, payload := payload,
    timestamp := now, synced := false, retryCount := 0 }

/-- The IndexedDB object store `pendingMessages`: rows keyed by the
auto-increment primary key `id`, kept in ascending key order. -/
structure IdbState where
  rows : List (Nat × OutboxRecord)
deriving DecidableEq, Repr

/-- Per the IndexedDB specification, a valid key is a number, date,
string, binary datum or array of valid keys; a boolean is not a valid
key, and a record whose evaluated index key path yields an invalid key
is not recorded in that index.  The `synced` field is stored as a
boolean literal, so it never yields a valid key for the `synced` index. -/
def boolIsValidIdbKey (_b : Bool) : Bool := false

/-- A string is always a valid IndexedDB key, so every row appears in the
`messageId` index. -/
def stringIsValidIdbKey (_s : String) : Bool := true

/-- The auto-increment key generator: one more than the largest key in
use (1 for an empty store). -/
def nextKey (st : IdbState) : Nat :=
  (st.rows.map Prod.fst).foldr max 0 + 1

/-- `objectStore.add(record)`: appends the row under a fresh
auto-increment key; rejects with `ConstraintError` when the unique
`messageId` index already holds the key (messageId strings are valid
index keys, so the uniqueness constraint is live). -/
def idbAdd (st : IdbState) (r : OutboxRecord) : Except String IdbState :=
  if st.rows.any (fun kr => stringIsValidIdbKey kr.2.messageId && kr.2.messageId == r.messageId) then
    .error "ConstraintError"
  else
    .ok { rows := st.rows ++ [(nextKey st, r)] }

/-- The entries of the `synced` index, in cursor order: only rows whose
`synced` value is a valid IndexedDB key are in the index, and a boolean
never is, so the cursor visits no row. -/
def syncedIndexCursor (st : IdbState) : List (Nat × OutboxRecord) :=
  st.rows.filter (fun kr => boolIsValidIdbKey kr.2.synced)

/-- `getIndexedDBMessages()`: walk the `synced` index cursor and keep the
rows whose value has `synced === false`. -/
def getIndexedDBMessages (st : IdbState) : List OutboxRecord :=
  ((syncedIndexCursor st).filter (fun kr => kr.2.synced == false)).map Prod.snd

/-- `index('messageId').get(messageId)`: the (unique) row indexed under
that messageId, lowest primary key first. -/
def messageIdIndexGet (st : IdbState) (mid : String) : Option (Nat × OutboxRecord) :=
  st.rows.find? (fun kr => kr.2.messageId == mid)

/-- `markSyncedInIndexedDB(messageId)` at time `now`: fetch the row via
the `messageId` index; when present, set `synced = true` and
`syncedAt = Date.now()` and `put` it back under the same primary key;
when absent, resolve without change. -/
def markSyncedInIndexedDB (st : IdbState) (mid : String) (now : Nat) : IdbState :=
  match messageIdIndexGet st mid with
  | none => st
  | some (k, r) =>
      { rows := st.rows.map (fun kr =>
          if kr.1 == k then (kr.1, { r with synced := true, syncedAt := some now })
          else kr) }

/-- `clearSyncedFromIndexedDB()`: walk the `synced` index cursor deleting
the rows whose value has `synced === true`.  Since the boolean-keyed
index holds no entry, no row is visited and none is deleted. -/
def clearSyncedFromIndexedDB (st : IdbState) : IdbState :=
  { rows := st.rows.filter (fun kr =>
      !(boolIsValidIdbKey kr.2.synced && kr.2.synced == true)) }

/-- The LocalStorage fallback: the JSON array under the
`google_sos_pending` key, in push order. -/
def storeInLocalStorage (st : List OutboxRecord) (r : OutboxRecord) : List OutboxRecord :=
  st ++ [r]

/-- `getLocalStorageMessages().filter(msg => !msg.synced)`. -/
def getPendingLocalStorage (st : List OutboxRecord) : List OutboxRecord :=
  st.filter (fun r => !r.synced)

/-- `markSyncedInLocalStorage(messageId)` at time `now`: map over the
stored array, setting `synced` and `syncedAt` on every record with that
messageId. -/
def markSyncedInLocalStorage (st : List OutboxRecord) (mid : String) (now : Nat) :
    List OutboxRecord :=
  st.map (fun r =>
    if r.messageId == mid then { r with synced := true, syncedAt := some now } else r)

/-- `clearSyncedMessages()` in LocalStorage mode: keep the unsynced
records. -/
def clearSyncedLocalStorage (st : List OutboxRecord) : List OutboxRecord :=
  st.filter (fun r => !r.synced)

/-- The storage backend selected at startup: IndexedDB by default,
LocalStorage when `useLocalStorage` was set by an IndexedDB open
failure. -/
inductive Storage where
  | idb (st : IdbState)
  | ls (st : List OutboxRecord)
deriving DecidableEq, Repr

/-- The bag of records currently held by the backend. -/
def recordsOf : Storage → List OutboxRecord
  | .idb st => st.rows.map Prod.snd
  | .ls st => st

/-- `storeMessage(message)`: build the record and dispatch on the
backend; the state is unchanged when the IndexedDB `add` rejects. -/
def storeMessage (s : Storage) (mid mtype payload : String) (now : Nat) : Storage :=
  match s with
  | .ls st => .ls (storeInLocalStorage st (mkRecord mid mtype payload now))
  | .idb st =>
      match idbAdd st (mkRecord mid mtype payload now) with
      | .ok st' => .idb st'
      | .error _ => .idb st

/-- `getPendingMessages()`: dispatch on the backend. -/
def getPendingMessages : Storage → List OutboxRecord
  | .idb st => getIndexedDBMessages st
  | .ls st => getPendingLocalStorage st

/-- `markAsSynced(messageId)` at time `now`: dispatch on the backend. -/
def markAsSynced (s : Storage) (mid : String) (now : Nat) : Storage :=
  match s with
  | .idb st => .idb (markSyncedInIndexedDB st mid now)
  | .ls st => .ls (markSyncedInLocalStorage st mid now)

/-- `clearSyncedMessages()`: dispatch on the backend. -/
def clearSyncedMessages : Storage → Storage
  | .idb st => .idb (clearSyncedFromIndexedDB st)
  | .ls st => .ls (clearSyncedLocalStorage st)

/-- The result of `getStats()`: pending count, and the oldest pending
timestamp (`Math.min` over the pending timestamps, `null` when none). -/
structure Stats where
  pendingCount : Nat
  oldestMessage : Option Nat
deriving DecidableEq, Repr

/-- `Math.min(...)` over a non-empty list of numbers. -/
def jsMathMin : Nat → List Nat → Nat
  | a, [] => a
  | a, b :: rest => jsMathMin (min a b) rest

/-- `getStats()`: computed from `getPendingMessages()`. -/
def getStats (s : Storage) : Stats :=
  let pending := getPendingMessages s
  { pendingCount := pending.length
    oldestMessage :=
      match pending.map (fun r => r.timestamp) with
      | [] => none
      | t :: ts => some (jsMathMin t ts) }

/-- The outbox operations whose sequences the state-transition invariant
quantifies over. -/
inductive OutboxOp where
  | store (mid mtype payload : String) (now : Nat)
  | mark (mid : String) (now : Nat)
  | compact
deriving DecidableEq, Repr

/-- One outbox operation applied to a backend state. -/
def applyOp (s : Storage) : OutboxOp → Storage
  | .store mid mtype payload now => storeMessage s mid mtype payload now
  | .mark mid now => markAsSynced s mid now
  | .compact => clearSyncedMessages s

/-- A sequence of outbox operations applied in order. -/
def applyOps (s : Storage) (ops : List OutboxOp) : Storage :=
  ops.foldl applyOp s

/-- Well-formedness of a backend state: an IndexedDB object store never
holds two rows under the same primary key (the LocalStorage array has no
keys). -/
def wfStorage : Storage → Prop
  | .idb st => (st.rows.map Prod.fst).Nodup
  | .ls _ => True

end Outbox

/-! ## Sync coordinator (`SyncManager.syncPendingMessages`) -/

namespace Sync

open Outbox

/-- The events `notifyListeners` can emit during one sync pass (the
`online`/`offline` events are emitted elsewhere and not part of a
pass). -/
inductive SyncEvent where
  | start
  | progress (synced total : Nat)
  | complete (synced failed : Nat)
  | syncError (msg : String)
deriving DecidableEq, Repr

/-- Observable outcome of one `syncPendingMessages()` call: the emitted
events in order, the storage afterwards, the `isSyncing` flag when the
call returns, and whether `clearSyncedMessages` (compaction) ran. -/
structure PassResult where
  events : List SyncEvent
  storage : Storage
  isSyncing : Bool
  compactCalled : Bool
deriving DecidableEq, Repr

/-- The per-record loop of `syncPendingMessages`: for each pending record
in order, attempt the upload (the `uploadOk` oracle says whether
`uploadMessage` resolves for that messageId); on success `markAsSynced`
and count it, emitting a progress event; on failure count it and move to
the next record.  Nothing else is written on failure — in particular the
record's `retryCount` is not touched.  Returns the storage after the
loop, the synced and failed counters, and the progress events. -/
def uploadLoop (uploadOk : String → Bool) (now total : Nat) :
    Storage → Nat → Nat → List OutboxRecord →
    Storage × Nat × Nat × List SyncEvent
  | st, synced, failed, [] => (st, synced, failed, [])
  | st, synced, failed, r :: rest =>
      if uploadOk r.messageId then
        let st' := markAsSynced st r.messageId now
        let (st'', s, f, evs) := uploadLoop uploadOk now total st' (synced + 1) failed rest
        (st'', s, f, SyncEvent.progress (synced + 1) total :: evs)
      else
        let (st'', s, f, evs) := uploadLoop uploadOk now total st synced (failed + 1) rest
        (st'', s, f, evs)

/-- `syncPendingMessages()`: return at once when offline or already
syncing; otherwise set the flag, emit `sync_start`, fetch the pending
records (`fetchFault` models the underlying store rejecting that read,
the batch-level exception of the `catch` clause), return early when
none are pending, else run the upload loop, compact, and emit
`sync_complete`; the `finally` clause clears `isSyncing` on every path
out of the `try`. -/
def syncPendingMessages (online syncing : Bool) (fetchFault : Option String)
    (uploadOk : String → Bool) (now : Nat) (st : Storage) : PassResult :=
  if !online then ⟨[], st, syncing, false⟩
  else if syncing then ⟨[], st, syncing, false⟩
  else
    match fetchFault with
    | some e => ⟨[.start, .syncError e], st, false, false⟩
    | none =>
        let pending := getPendingMessages st
        if pending.isEmpty then ⟨[.start], st, false, false⟩
        else
          let (st1, synced, failed, progressEvs) :=
            uploadLoop uploadOk now pending.length st 0 0 pending
          let st2 := clearSyncedMessages st1
          ⟨.start :: (progressEvs ++ [.complete synced failed]), st2, false, true⟩

end Sync

/-! ## Rate-limited dispatcher (Gemini request queue) -/

namespace Gemini

/-- What one `fetch` attempt of `performGeminiRequest` observes:
`data.error` with an HTTP-style code, a thrown transport/parse error,
or a parsed success payload. -/
inductive GeminiResponse where
  | apiError (code : Nat)
  | fetchFailure
  | success (text : String)
deriving DecidableEq, Repr

/-- A response that takes the non-retrying failure paths: a thrown
error, or `data.error` with a code other than 429. -/
def isFatal : GeminiResponse → Bool
  | .apiError c => !(c == 429)
  | .fetchFailure => true
  | .success _ => false

/-- Observable outcome of one `performGeminiRequest` call: the value it
returns (`none` is the JS `null`), the number of `fetch` attempts made,
and the backoff delays slept, in order. -/
structure GeminiRun where
  result : Option String
  attempts : Nat
  sleeps : List Nat
deriving DecidableEq, Repr

/-- The retry loop of `performGeminiRequest`: `retries` starts at 3 and
`delay` at 2000; a 429 `data.error` sleeps `delay`, decrements
`retries`, doubles `delay` and continues; any other `data.error` and any
thrown error return `null` at once; a parsed response is returned; an
exhausted loop returns `null`.  `resp i` is what the i-th attempt
observes. -/
def geminiLoop (resp : Nat → GeminiResponse) : Nat → Nat → Nat → GeminiRun
  | _i, 0, _d => ⟨none, 0, []⟩
  | i, retries + 1, d =>
      match resp i with
      | .apiError c =>
          if c == 429 then
            let rest := geminiLoop resp (i + 1) retries (d * 2)
            ⟨rest.result, rest.attempts + 1, d :: rest.sleeps⟩
          else ⟨none, 1, []⟩
      | .fetchFailure => ⟨none, 1, []⟩
      | .success t => ⟨some t, 1, []⟩

/-- `performGeminiRequest(sosData)`: the retry loop entered with
`retries = 3`, `delay = 2000`. -/
def performGeminiRequest (resp : Nat → GeminiResponse) : GeminiRun :=
  geminiLoop resp 0 3 2000

/-- How `processQueue` settles the caller's promise: the result of
`performGeminiRequest` on normal return, and `resolve(null)` — never a
rejection — when the awaited request threw. -/
def processQueueResolve (outcome : Except String GeminiRun) : Option String :=
  match outcome with
  | .ok run => run.result
  | .error _ => none

end Gemini

/-! ## Concrete fixtures used by counterexamples and witnesses -/

namespace Fixtures

open Mesh Outbox Sync Gemini

/-- A fresh router for device `A`. -/
def deviceA : MeshState := initMesh "A"

/-- A wire message whose `senderId` is the receiving device itself. -/
def selfEcho : WireMessage :=
  { mtype := "SOS_BROADCAST", payload := "p", messageId := "x",
    hops := 0, timestamp := 100, senderId := "A" }

/-- A fresh message from another device. -/
def msgFromB : WireMessage :=
  { mtype := "SOS_BROADCAST", payload := "p", messageId := "w",
    hops := 0, timestamp := 100, senderId := "B" }

/-- A relayed copy of `msgFromB`: same `messageId`, but a different hop
count, sender and `forwardedBy` — the loop-suppression case. -/
def relayedCopyW : WireMessage :=
  { mtype := "SOS_BROADCAST", payload := "p", messageId := "w",
    hops := 1, timestamp := 100, senderId := "C", forwardedBy := some "B" }

/-- A message arriving with `hops = maxHops - 1 = 4`. -/
def nearLimitMsg : WireMessage :=
  { mtype := "SOS_BROADCAST", payload := "p", messageId := "y",
    hops := 4, timestamp := 100, senderId := "B" }

/-- A message arriving with `hops = maxHops = 5`. -/
def atLimitMsg : WireMessage :=
  { mtype := "SOS_BROADCAST", payload := "p", messageId := "z",
    hops := 5, timestamp := 100, senderId := "B" }

/-- Three pending outbox records with distinct messageIds. -/
def rec1 : OutboxRecord := mkRecord "m1" "SOS_BROADCAST" "a" 1

/-- Second pending record. -/
def rec2 : OutboxRecord := mkRecord "m2" "SOS_BROADCAST" "b" 2

/-- Third pending record. -/
def rec3 : OutboxRecord := mkRecord "m3" "SOS_BROADCAST" "c" 3

/-- An upload oracle that fails exactly for messageId `m2`. -/
def uploadOkNotM2 : String → Bool := fun mid => !(mid == "m2")

/-- An upload oracle that always succeeds. -/
def uploadAlwaysOk : String → Bool := fun _ => true

/-- A response stream that is rate-limited on every attempt. -/
def allRateLimited : Nat → GeminiResponse := fun _ => .apiError 429

/-- A response stream whose first attempt throws. -/
def allFetchFail : Nat → GeminiResponse := fun _ => .fetchFailure

end Fixtures

/-! ## Theorems for the claims -/

open Mesh Outbox Sync Gemini Fixtures

/-- C1, counterexample: the claim quantifies over every message, but for
a message whose `senderId` is the receiving device itself, two
invocations of `handleIncomingMessage` with the same `messageId` fire
the handlers zero times, not exactly once. -/
theorem c1_counterexample :
    (handleIncomingMessage deviceA 100 selfEcho).2.fired = false ∧
    (handleIncomingMessage (handleIncomingMessage deviceA 100 selfEcho).1
      100 selfEcho).2.fired = false := by
  decide

/-- C1, amended: if the first invocation of `handleIncomingMessage`
accepts a message (the handlers fire on it), then a second invocation
with any message carrying the same `messageId` — whatever its hop
count, sender, timestamp or `forwardedBy`, so in particular a relayed
copy, the loop-suppression case — is a complete no-op: the handlers do
not fire again (so they fire exactly once for that `messageId`), no
second forward is scheduled, and the router state is unchanged. -/
theorem c1_second_receive_noop (s : Mesh.MeshState) (now now' : Nat)
    (data data' : Mesh.WireMessage)
    (h : (handleIncomingMessage s now data).2.fired = true)
    (hmid : data'.messageId = data.messageId) :
    handleIncomingMessage (handleIncomingMessage s now data).1 now' data' =
      ((handleIncomingMessage s now data).1, ⟨false, none⟩) := by
  unfold handleIncomingMessage at h
  by_cases h1 : (data.senderId == s.deviceId) = true
  · simp [h1] at h
  · by_cases h2 : cacheHas s data.messageId = true
    · simp [h1, h2] at h
    · by_cases h3 : s.maxHops ≤ data.hops
      · simp [h1, h2, h3] at h
      · by_cases h4 : s.ttl < now - data.timestamp
        · simp [h1, h2, h3, h4] at h
        · have hs1 : (handleIncomingMessage s now data).1 =
              { s with messageCache := (data.messageId,
                  ⟨data.timestamp, data.hops, data.mtype, data.payload⟩) ::
                    s.messageCache } := by
            unfold handleIncomingMessage
            simp [h1, h2, h3, h4]
          rw [hs1]
          unfold handleIncomingMessage
          by_cases hsnd : (data'.senderId == s.deviceId) = true
          · simp [hsnd]
          · simp [hsnd, cacheHas, hmid]

/-- C1, witness: a concrete accepted message; receiving a relayed copy
with the same messageId but different hop count, sender and
`forwardedBy` is a no-op. -/
theorem c1_second_receive_noop_witness :
    (handleIncomingMessage deviceA 100 msgFromB).2.fired = true ∧
    handleIncomingMessage (handleIncomingMessage deviceA 100 msgFromB).1
        200 relayedCopyW =
      ((handleIncomingMessage deviceA 100 msgFromB).1, ⟨false, none⟩) :=
  ⟨by decide,
   c1_second_receive_noop deviceA 100 200 msgFromB relayedCopyW (by decide) (by decide)⟩

/-- C2, counterexample: a message arriving with
`hopCount = maxHops - 1 = 4` is accepted (the handlers fire) but no
forward is scheduled at all, because the incremented hop count would
equal `maxHops`; the claim says a forward carrying hop count `maxHops`
is scheduled. -/
theorem c2_counterexample :
    (handleIncomingMessage deviceA 100 nearLimitMsg).2.fired = true ∧
    (handleIncomingMessage deviceA 100 nearLimitMsg).2.forward = none := by
  decide

/-- C2, amended: for every message whose incremented hop count would
reach `maxHops` (in particular one arriving with `hopCount = maxHops -
1`), no forward is scheduled; and every message arriving with
`hopCount ≥ maxHops` is rejected outright: handlers do not fire, no
forward is scheduled, and the router state is unchanged. -/
theorem c2_hop_bound (s : Mesh.MeshState) (now : Nat) (data : Mesh.WireMessage) :
    (s.maxHops ≤ data.hops + 1 →
      (handleIncomingMessage s now data).2.forward = none) ∧
    (s.maxHops ≤ data.hops →
      handleIncomingMessage s now data = (s, ⟨false, none⟩)) := by
  constructor
  · intro h
    unfold handleIncomingMessage
    by_cases h1 : (data.senderId == s.deviceId) = true
    · simp [h1]
    · by_cases h2 : cacheHas s data.messageId = true
      · simp [h1, h2]
      · by_cases h3 : s.maxHops ≤ data.hops
        · simp [h1, h2, h3]
        · by_cases h4 : s.ttl < now - data.timestamp
          · simp [h1, h2, h3, h4]
          · simp [h1, h2, h3, h4, forwardMessage, h]
  · intro h
    unfold handleIncomingMessage
    by_cases h1 : (data.senderId == s.deviceId) = true
    · simp [h1]
    · by_cases h2 : cacheHas s data.messageId = true
      · simp [h1, h2]
      · simp [h1, h2, h]

/-- C2, witness: with the default `maxHops = 5`, a message at hop 4 is
relayed nowhere, and a message at hop 5 is rejected without any state
change. -/
theorem c2_hop_bound_witness :
    (handleIncomingMessage deviceA 100 nearLimitMsg).2.forward = none ∧
    handleIncomingMessage deviceA 100 atLimitMsg = (deviceA, ⟨false, none⟩) :=
  ⟨(c2_hop_bound deviceA 100 nearLimitMsg).1 (by decide),
   (c2_hop_bound deviceA 100 atLimitMsg).2 (by decide)⟩

/-- C6, counterexample: after `broadcastSOS`, the returned `messageId` is
not in the sender's dedup cache — the claim says the broadcast registers
it there. -/
theorem c6_counterexample :
    cacheHas (broadcastSOS deviceA 1000 "pay").1
      (broadcastSOS deviceA 1000 "pay").2.2 = false := by
  decide

/-- C6, amended: the broadcast operations assign `hopCount = 0`,
timestamp the message with the current time, publish it with the
sender's own `senderId`, and leave the router state unchanged — the
`messageId` is not registered in the dedup cache.  The sender
nonetheless never reprocesses its own echo, because
`handleIncomingMessage` rejects any message whose `senderId` equals the
receiving device's id. -/
theorem c6_broadcast_shape (s : Mesh.MeshState) (now : Nat) (p : String) :
    (broadcastSOS s now p).1 = s ∧
    (broadcastSOS s now p).2.1.hops = 0 ∧
    (broadcastSOS s now p).2.1.timestamp = now ∧
    (broadcastSOS s now p).2.1.senderId = s.deviceId ∧
    (broadcastSOS s now p).2.1.messageId = (broadcastSOS s now p).2.2 ∧
    (broadcastChat s now p).1 = s ∧
    (broadcastChat s now p).2.1.hops = 0 ∧
    (broadcastChat s now p).2.1.timestamp = now ∧
    (broadcastChat s now p).2.1.senderId = s.deviceId ∧
    (broadcastChat s now p).2.1.messageId = (broadcastChat s now p).2.2 ∧
    (∀ (s₂ : Mesh.MeshState) (t : Nat), s₂.deviceId = s.deviceId →
      handleIncomingMessage s₂ t (broadcastSOS s now p).2.1 = (s₂, ⟨false, none⟩)) ∧
    (∀ (s₂ : Mesh.MeshState) (t : Nat), s₂.deviceId = s.deviceId →
      handleIncomingMessage s₂ t (broadcastChat s now p).2.1 = (s₂, ⟨false, none⟩)) := by
  refine ⟨rfl, rfl, rfl, rfl, rfl, rfl, rfl, rfl, rfl, rfl, ?_, ?_⟩ <;>
    · intro s₂ t hdev
      unfold handleIncomingMessage
      simp [broadcastSOS, broadcastChat, hdev]

/-- C6, witness: the sender's own router rejects the message it just
broadcast. -/
theorem c6_broadcast_shape_witness :
    handleIncomingMessage deviceA 55 (broadcastSOS deviceA 1000 "pay").2.1 =
      (deviceA, ⟨false, none⟩) :=
  (c6_broadcast_shape deviceA 1000 "pay").2.2.2.2.2.2.2.2.2.2.1 deviceA 55 rfl

/-- C5: the IndexedDB path of the outbox loses its pending listing.
Storing one record in an empty IndexedDB-backed outbox durably appends
the row, yet `getPendingMessages` returns the empty list — the `synced`
index is keyed on a boolean, which is not a valid IndexedDB key, so the
index holds no entry and the cursor of `getIndexedDBMessages` visits no
row.  The claim (and the code's own intent) says all stored pending
records are returned in insertion order. -/
theorem c5_idb_pending_empty :
    storeMessage (Storage.idb ⟨[]⟩) "m1" "SOS_BROADCAST" "p" 5 =
      Storage.idb ⟨[(1, mkRecord "m1" "SOS_BROADCAST" "p" 5)]⟩ ∧
    getPendingMessages (storeMessage (Storage.idb ⟨[]⟩) "m1" "SOS_BROADCAST" "p" 5) =
      [] ∧
    getPendingMessages (storeMessage (Storage.ls []) "m1" "SOS_BROADCAST" "p" 5) =
      [mkRecord "m1" "SOS_BROADCAST" "p" 5] := by
  decide

/-! ### Helper lemmas for the outbox -/

/-- `markSyncedInLocalStorage` preserves the set of records carrying a
given messageId, upgrading each of them. -/
theorem markSyncedLS_filter (st : List Outbox.OutboxRecord) (mid : String) (now : Nat) :
    (Outbox.markSyncedInLocalStorage st mid now).filter (fun x => x.messageId == mid) =
      (st.filter (fun x => x.messageId == mid)).map
        (fun r => { r with synced := true, syncedAt := some now }) := by
  unfold Outbox.markSyncedInLocalStorage
  rw [List.filter_map]
  have hpf : ((fun x : Outbox.OutboxRecord => x.messageId == mid) ∘
      (fun r : Outbox.OutboxRecord =>
        if r.messageId == mid then { r with synced := true, syncedAt := some now } else r)) =
      fun x : Outbox.OutboxRecord => x.messageId == mid := by
    funext x
    by_cases hx : x.messageId = mid <;> simp [hx]
  rw [hpf]
  apply List.map_congr_left
  intro a ha
  have hpa := (List.mem_filter.mp ha).2
  simp [hpa]

/-- `markSyncedInLocalStorage` on an absent messageId is a no-op. -/
theorem markSyncedLS_absent (st : List Outbox.OutboxRecord) (mid : String) (now : Nat)
    (h : ∀ r ∈ st, r.messageId ≠ mid) :
    Outbox.markSyncedInLocalStorage st mid now = st := by
  unfold Outbox.markSyncedInLocalStorage
  have hid : ∀ r ∈ st,
      (if r.messageId == mid then
        { r with synced := true, syncedAt := some now } else r) = r := by
    intro r hr
    have : (r.messageId == mid) = false := beq_eq_false_iff_ne.mpr (h r hr)
    simp [this]
  rw [List.map_congr_left hid]
  simp

/-- `markSyncedInIndexedDB` does not change the primary keys. -/
theorem markIdb_keys (st : Outbox.IdbState) (mid : String) (now : Nat) :
    (Outbox.markSyncedInIndexedDB st mid now).rows.map Prod.fst =
      st.rows.map Prod.fst := by
  unfold Outbox.markSyncedInIndexedDB
  cases hfind : Outbox.messageIdIndexGet st mid with
  | none => rfl
  | some kr =>
      obtain ⟨k, r0⟩ := kr
      dsimp only
      rw [List.map_map]
      apply List.map_congr_left
      intro a _
      show (if a.1 == k then _ else a).1 = a.1
      split <;> rfl

/-- `markSyncedInIndexedDB` on an absent messageId is a no-op. -/
theorem markIdb_absent (st : Outbox.IdbState) (mid : String) (now : Nat)
    (h : ∀ r ∈ st.rows.map Prod.snd, r.messageId ≠ mid) :
    Outbox.markSyncedInIndexedDB st mid now = st := by
  unfold Outbox.markSyncedInIndexedDB Outbox.messageIdIndexGet
  have hfind : st.rows.find? (fun kr => kr.2.messageId == mid) = none := by
    rw [List.find?_eq_none]
    intro kr hkr hbeq
    exact h kr.2 (List.mem_map.mpr ⟨kr, hkr, rfl⟩) (eq_of_beq hbeq)
  rw [hfind]

/-- On a key-unique store holding exactly one record with messageId
`mid`, `markSyncedInIndexedDB` leaves exactly the upgraded record under
that messageId. -/
theorem markIdb_filter (mid : String) (now : Nat) :
    ∀ (rows : List (Nat × Outbox.OutboxRecord)) (r : Outbox.OutboxRecord),
      (rows.map Prod.fst).Nodup →
      (rows.map Prod.snd).filter (fun x => x.messageId == mid) = [r] →
      ((Outbox.markSyncedInIndexedDB ⟨rows⟩ mid now).rows.map Prod.snd).filter
          (fun x => x.messageId == mid) =
        [{ r with synced := true, syncedAt := some now }] := by
  intro rows
  induction rows with
  | nil => intro r _ hfil; simp at hfil
  | cons hd rest ih =>
      obtain ⟨k0, a⟩ := hd
      intro r hnd hfil
      rw [List.map_cons, List.nodup_cons] at hnd
      obtain ⟨hk0, hndrest⟩ := hnd
      rw [List.map_cons] at hfil
      dsimp only at hfil hk0
      by_cases pa : (a.messageId == mid) = true
      · have hfind : List.find? (fun kr : Nat × Outbox.OutboxRecord =>
            kr.2.messageId == mid) ((k0, a) :: rest) = some (k0, a) :=
          List.find?_cons_of_pos _ pa
        rw [@List.filter_cons_of_pos _ (fun x : Outbox.OutboxRecord =>
          x.messageId == mid) a (rest.map Prod.snd) pa] at hfil
        injection hfil with ha hrest
        subst ha
        unfold Outbox.markSyncedInIndexedDB Outbox.messageIdIndexGet
        dsimp only
        rw [hfind]
        dsimp only
        have hrest_id : rest.map (fun kr : Nat × Outbox.OutboxRecord =>
            if kr.1 == k0 then (kr.1, { a with synced := true, syncedAt := some now })
            else kr) = rest := by
          have hid : ∀ kr ∈ rest, (if kr.1 == k0 then
              (kr.1, { a with synced := true, syncedAt := some now }) else kr) = kr := by
            intro kr hkr
            have hne : (kr.1 == k0) = false := by
              apply beq_eq_false_iff_ne.mpr
              intro he
              exact hk0 (he ▸ List.mem_map.mpr ⟨kr, hkr, rfl⟩)
            simp [hne]
          rw [List.map_congr_left hid]
          simp
        rw [List.map_cons, hrest_id]
        dsimp only
        rw [if_pos (beq_self_eq_true k0)]
        rw [List.map_cons]
        dsimp only
        rw [@List.filter_cons_of_pos _ (fun x : Outbox.OutboxRecord =>
          x.messageId == mid) _ (rest.map Prod.snd) (by simpa using pa), hrest]
      · have pafalse : ¬((fun x : Outbox.OutboxRecord =>
            x.messageId == mid) a = true) := pa
        rw [@List.filter_cons_of_neg _ (fun x : Outbox.OutboxRecord =>
          x.messageId == mid) a (rest.map Prod.snd) pafalse] at hfil
        have hfind_cons : List.find? (fun kr : Nat × Outbox.OutboxRecord =>
            kr.2.messageId == mid) ((k0, a) :: rest) =
            List.find? (fun kr : Nat × Outbox.OutboxRecord =>
              kr.2.messageId == mid) rest :=
          List.find?_cons_of_neg _ pa
        have hrmem : r ∈ (rest.map Prod.snd).filter
            (fun x => x.messageId == mid) := by
          rw [hfil]; exact List.mem_cons_self _ _
        have hrmem' := List.mem_filter.mp hrmem
        cases hfindrest : List.find? (fun kr : Nat × Outbox.OutboxRecord =>
            kr.2.messageId == mid) rest with
        | none =>
            exfalso
            rw [List.find?_eq_none] at hfindrest
            obtain ⟨kr, hkr, hsnd⟩ := List.mem_map.mp hrmem'.1
            exact hfindrest kr hkr (by rw [hsnd]; exact hrmem'.2)
        | some kr0 =>
            obtain ⟨k, r0⟩ := kr0
            have hkmem : k ∈ rest.map Prod.fst :=
              List.mem_map.mpr ⟨(k, r0), List.mem_of_find?_eq_some hfindrest, rfl⟩
            have hk0k : (k0 == k) = false := by
              apply beq_eq_false_iff_ne.mpr
              intro he
              exact hk0 (he ▸ hkmem)
            have hih := ih r hndrest hfil
            unfold Outbox.markSyncedInIndexedDB Outbox.messageIdIndexGet at hih ⊢
            dsimp only at hih ⊢
            rw [hfind_cons, hfindrest]
            rw [hfindrest] at hih
            dsimp only at hih ⊢
            rw [List.map_cons]
            dsimp only
            rw [if_neg (by simp [hk0k] : ¬((k0 == k) = true))]
            rw [List.map_cons]
            dsimp only
            rw [@List.filter_cons_of_neg _ (fun x : Outbox.OutboxRecord =>
              x.messageId == mid) a _ pafalse]
            exact hih

/-- The IndexedDB compaction visits no row: the cursor runs over the
boolean-keyed `synced` index, which is empty. -/
theorem clearSyncedIdb_eq (st : Outbox.IdbState) :
    Outbox.clearSyncedFromIndexedDB st = st := by
  unfold Outbox.clearSyncedFromIndexedDB
  cases st with
  | mk rows =>
      congr 1
      have : ∀ kr ∈ rows, (!(Outbox.boolIsValidIdbKey kr.2.synced &&
          kr.2.synced == true)) = true := by
        intro kr _
        simp [Outbox.boolIsValidIdbKey]
      calc rows.filter _ = rows.filter (fun _ => true) :=
            List.filter_congr this
        _ = rows := List.filter_true rows

/-- C7: `markAsSynced` is idempotent in both backends.  Calling it on an
absent messageId is a successful no-op (the state is returned
unchanged, no error path is taken), and on a store holding exactly one
record with the given messageId, calling it twice leaves exactly one
record under that messageId, in the Synced state (with `syncedAt` from
the second call).  The IndexedDB case assumes the object-store
invariant that primary keys are unique. -/
theorem c7_markSynced_idempotent (s : Outbox.Storage) (mid : String) (n1 n2 : Nat) :
    ((∀ r ∈ Outbox.recordsOf s, r.messageId ≠ mid) →
      Outbox.markAsSynced s mid n1 = s) ∧
    (Outbox.wfStorage s →
      ∀ r, (Outbox.recordsOf s).filter (fun x => x.messageId == mid) = [r] →
        (Outbox.recordsOf
            (Outbox.markAsSynced (Outbox.markAsSynced s mid n1) mid n2)).filter
            (fun x => x.messageId == mid) =
          [{ r with synced := true, syncedAt := some n2 }]) := by
  constructor
  · intro h
    cases s with
    | ls st => exact congrArg Outbox.Storage.ls (markSyncedLS_absent st mid n1 h)
    | idb st => exact congrArg Outbox.Storage.idb (markIdb_absent st mid n1 h)
  · intro hwf r hfil
    cases s with
    | ls st =>
        show (Outbox.markSyncedInLocalStorage
            (Outbox.markSyncedInLocalStorage st mid n1) mid n2).filter _ = _
        have hfil' : st.filter (fun x => x.messageId == mid) = [r] := hfil
        rw [markSyncedLS_filter, markSyncedLS_filter, hfil']
        rfl
    | idb st =>
        have h1 := markIdb_filter mid n1 st.rows r hwf hfil
        have hnd1 : ((Outbox.markSyncedInIndexedDB st mid n1).rows.map Prod.fst).Nodup := by
          rw [markIdb_keys]; exact hwf
        have h2 := markIdb_filter mid n2 (Outbox.markSyncedInIndexedDB st mid n1).rows
          { r with synced := true, syncedAt := some n1 } hnd1 h1
        exact h2

/-- C7, witness: marking an absent id is a no-op, and double-marking a
present id leaves exactly one synced record. -/
theorem c7_markSynced_idempotent_witness :
    Outbox.markAsSynced (Outbox.Storage.ls [rec1]) "zz" 7 = Outbox.Storage.ls [rec1] ∧
    (Outbox.recordsOf
        (Outbox.markAsSynced (Outbox.markAsSynced (Outbox.Storage.ls [rec1]) "m1" 7)
          "m1" 9)).filter (fun x => x.messageId == "m1") =
      [{ rec1 with synced := true, syncedAt := some 9 }] :=
  ⟨(c7_markSynced_idempotent (Outbox.Storage.ls [rec1]) "zz" 7 8).1 (by decide),
   (c7_markSynced_idempotent (Outbox.Storage.ls [rec1]) "m1" 7 9).2 trivial rec1 (by decide)⟩

/-- One outbox operation cannot move a record backward: any record that
is Pending after the operation was already present (with identical
fields, hence Pending) before it, or is the freshly enqueued record of
a `store` operation (created Pending with `retryCount = 0`). -/
theorem applyOp_pending_origin (s : Outbox.Storage) (op : Outbox.OutboxOp)
    (r' : Outbox.OutboxRecord)
    (hmem : r' ∈ Outbox.recordsOf (Outbox.applyOp s op))
    (hp : r'.synced = false) :
    r' ∈ Outbox.recordsOf s ∨
      ∃ mid mt pl now, op = Outbox.OutboxOp.store mid mt pl now ∧
        r' = Outbox.mkRecord mid mt pl now := by
  cases op with
  | store mid mt pl now =>
      cases s with
      | ls st =>
          simp only [Outbox.applyOp, Outbox.storeMessage, Outbox.storeInLocalStorage,
            Outbox.recordsOf] at hmem
          rcases List.mem_append.mp hmem with h | h
          · exact Or.inl h
          · right
            refine ⟨mid, mt, pl, now, rfl, ?_⟩
            simpa using h
      | idb st =>
          simp only [Outbox.applyOp, Outbox.storeMessage] at hmem
          cases hadd : Outbox.idbAdd st (Outbox.mkRecord mid mt pl now) with
          | error e =>
              rw [hadd] at hmem
              exact Or.inl hmem
          | ok st' =>
              rw [hadd] at hmem
              unfold Outbox.idbAdd at hadd
              split at hadd
              · exact absurd hadd (by simp)
              · injection hadd with hst'
                subst hst'
                simp only [Outbox.recordsOf, List.map_append] at hmem
                rcases List.mem_append.mp hmem with h | h
                · exact Or.inl h
                · right
                  refine ⟨mid, mt, pl, now, rfl, ?_⟩
                  simpa using h
  | mark mid now =>
      cases s with
      | ls st =>
          simp only [Outbox.applyOp, Outbox.markAsSynced,
            Outbox.markSyncedInLocalStorage, Outbox.recordsOf] at hmem
          obtain ⟨a, ha, hfa⟩ := List.mem_map.mp hmem
          by_cases hb : a.messageId = mid
          · rw [if_pos (by simp [hb])] at hfa
            rw [← hfa] at hp
            simp at hp
          · rw [if_neg (by simp [hb])] at hfa
            exact Or.inl (hfa ▸ ha)
      | idb st =>
          simp only [Outbox.applyOp, Outbox.markAsSynced,
            Outbox.markSyncedInIndexedDB, Outbox.recordsOf] at hmem
          cases hfind : Outbox.messageIdIndexGet st mid with
          | none =>
              rw [hfind] at hmem
              exact Or.inl hmem
          | some kr0 =>
              obtain ⟨k, r0⟩ := kr0
              rw [hfind] at hmem
              dsimp only at hmem
              rw [List.map_map] at hmem
              obtain ⟨kr, hkr, hfa⟩ := List.mem_map.mp hmem
              dsimp only [Function.comp] at hfa
              by_cases hb : (kr.1 == k) = true
              · rw [if_pos hb] at hfa
                rw [← hfa] at hp
                simp at hp
              · rw [if_neg hb] at hfa
                exact Or.inl (List.mem_map.mpr ⟨kr, hkr, hfa⟩)
  | compact =>
      cases s with
      | ls st =>
          simp only [Outbox.applyOp, Outbox.clearSyncedMessages,
            Outbox.clearSyncedLocalStorage, Outbox.recordsOf] at hmem
          exact Or.inl (List.mem_filter.mp hmem).1
      | idb st =>
          simp only [Outbox.applyOp, Outbox.clearSyncedMessages,
            clearSyncedIdb_eq] at hmem
          exact Or.inl hmem

/-- C8: over every sequence of outbox operations, a record's state only
moves Pending to Synced and never backward — every record found Pending
after the sequence is either a record that was already present (hence
already Pending, with identical fields) before it, or the fresh Pending
record of one of the sequence's `store` operations — and compaction
never removes a Pending record: every Pending record of the store is
still present after `compact`. -/
theorem c8_state_invariant (ops : List Outbox.OutboxOp) (s : Outbox.Storage) :
    (∀ r', r' ∈ Outbox.recordsOf (Outbox.applyOps s ops) → r'.synced = false →
      r' ∈ Outbox.recordsOf s ∨
        ∃ op ∈ ops, ∃ mid mt pl now, op = Outbox.OutboxOp.store mid mt pl now ∧
          r' = Outbox.mkRecord mid mt pl now) ∧
    (∀ r, r ∈ Outbox.recordsOf s → r.synced = false →
      r ∈ Outbox.recordsOf (Outbox.applyOp s Outbox.OutboxOp.compact)) := by
  constructor
  · induction ops generalizing s with
    | nil => intro r' hmem _; exact Or.inl hmem
    | cons op rest ih =>
        intro r' hmem hp
        have hmem' : r' ∈ Outbox.recordsOf (Outbox.applyOps (Outbox.applyOp s op) rest) := by
          simpa [Outbox.applyOps, List.foldl_cons] using hmem
        rcases ih (Outbox.applyOp s op) r' hmem' hp with h | ⟨op', hop', hex⟩
        · rcases applyOp_pending_origin s op r' h hp with h2 | ⟨mid, mt, pl, now, heq, hr⟩
          · exact Or.inl h2
          · exact Or.inr ⟨op, List.mem_cons_self _ _, mid, mt, pl, now, heq, hr⟩
        · exact Or.inr ⟨op', List.mem_cons_of_mem _ hop', hex⟩
  · intro r hmem hp
    cases s with
    | ls st =>
        simp only [Outbox.applyOp, Outbox.clearSyncedMessages,
          Outbox.clearSyncedLocalStorage, Outbox.recordsOf] at hmem ⊢
        exact List.mem_filter.mpr ⟨hmem, by simp [hp]⟩
    | idb st =>
        simp only [Outbox.applyOp, Outbox.clearSyncedMessages, clearSyncedIdb_eq]
        exact hmem

/-- C8, witness: a Pending record survives a mark-of-another-id
operation and is kept by compaction. -/
theorem c8_state_invariant_witness :
    (rec1 ∈ Outbox.recordsOf (Outbox.Storage.ls [rec1]) ∨
      ∃ op ∈ ([Outbox.OutboxOp.mark "m9" 7] : List Outbox.OutboxOp),
        ∃ mid mt pl now, op = Outbox.OutboxOp.store mid mt pl now ∧
          rec1 = Outbox.mkRecord mid mt pl now) ∧
    rec1 ∈ Outbox.recordsOf (Outbox.applyOp (Outbox.Storage.ls [rec1])
      Outbox.OutboxOp.compact) :=
  ⟨(c8_state_invariant [Outbox.OutboxOp.mark "m9" 7] (Outbox.Storage.ls [rec1])).1
      rec1 (by decide) (by decide),
   (c8_state_invariant [] (Outbox.Storage.ls [rec1])).2 rec1 (by decide) (by decide)⟩

/-- `jsMathMin` folds `min` over its arguments. -/
theorem jsMathMin_min (rest : List Nat) :
    ∀ a b, Outbox.jsMathMin (min a b) rest = min a (Outbox.jsMathMin b rest) := by
  induction rest with
  | nil => intro a b; rfl
  | cons c rest ih =>
      intro a b
      show Outbox.jsMathMin (min (min a b) c) rest = min a (Outbox.jsMathMin (min b c) rest)
      rw [min_assoc, ih]

/-- `Math.min` over a non-empty argument list agrees with `List.min?`. -/
theorem min?_eq_jsMathMin (ts : List Nat) :
    ∀ t, (t :: ts).min? = some (Outbox.jsMathMin t ts) := by
  induction ts with
  | nil => intro t; rfl
  | cons b rest ih =>
      intro t
      rw [List.min?_cons, ih, Option.elim]
      show some (min t (Outbox.jsMathMin b rest)) = some (Outbox.jsMathMin (min t b) rest)
      rw [jsMathMin_min]

/-- C10: for every backend state, `getStats` reports a `pendingCount`
equal to the length of the pending listing and an oldest-message
timestamp equal to the minimum timestamp among the listed pending
records (none when no record is pending). -/
theorem c10_stats_consistent (s : Outbox.Storage) :
    (Outbox.getStats s).pendingCount = (Outbox.getPendingMessages s).length ∧
    (Outbox.getStats s).oldestMessage =
      ((Outbox.getPendingMessages s).map (fun r => r.timestamp)).min? := by
  constructor
  · rfl
  · unfold Outbox.getStats
    cases h : (Outbox.getPendingMessages s).map (fun r => r.timestamp) with
    | nil => simp [h]
    | cons t ts =>
        have h2 := min?_eq_jsMathMin ts t
        rw [List.min?_cons] at h2
        simp [h]
        exact (Option.some.inj h2).symm

/-- C3, counterexample: three pending records where the upload of the
second fails.  After the pass the only surviving record is the failing
one, unchanged — its `retryCount` is still 0, not 1 as the claim states:
the per-record catch block only counts the failure and never writes a
retryCount back to storage. -/
theorem c3_counterexample :
    (syncPendingMessages true false none uploadOkNotM2 50
        (Outbox.Storage.ls [rec1, rec2, rec3])).storage =
      Outbox.Storage.ls [rec2] ∧
    rec2.retryCount = 0 ∧ rec2.synced = false := by
  decide

/-- C3, amended: for every three pending records with distinct
messageIds where the upload of the second fails and the others succeed,
the upload loop marks records 1 and 3 Synced, leaves record 2 Pending
with all its fields (including `retryCount`) unchanged, continues past
the failure (2 synced, 1 failed), and the full pass then compacts away
exactly the two Synced records and reports `sync_complete` with counts
2 and 1. -/
theorem c3_partial_failure (a b c : Outbox.OutboxRecord) (uploadOk : String → Bool)
    (now : Nat)
    (hsa : a.synced = false) (hsb : b.synced = false) (hsc : c.synced = false)
    (hab : a.messageId ≠ b.messageId) (hac : a.messageId ≠ c.messageId)
    (hbc : b.messageId ≠ c.messageId)
    (hua : uploadOk a.messageId = true) (hub : uploadOk b.messageId = false)
    (huc : uploadOk c.messageId = true) :
    uploadLoop uploadOk now 3 (Outbox.Storage.ls [a, b, c]) 0 0 [a, b, c] =
      (Outbox.Storage.ls
        [{ a with synced := true, syncedAt := some now }, b,
         { c with synced := true, syncedAt := some now }], 2, 1,
       [SyncEvent.progress 1 3, SyncEvent.progress 2 3]) ∧
    syncPendingMessages true false none uploadOk now (Outbox.Storage.ls [a, b, c]) =
      ⟨[SyncEvent.start, SyncEvent.progress 1 3, SyncEvent.progress 2 3,
        SyncEvent.complete 2 1], Outbox.Storage.ls [b], false, true⟩ := by
  have h1 : uploadLoop uploadOk now 3 (Outbox.Storage.ls [a, b, c]) 0 0 [a, b, c] =
      (Outbox.Storage.ls
        [{ a with synced := true, syncedAt := some now }, b,
         { c with synced := true, syncedAt := some now }], 2, 1,
       [SyncEvent.progress 1 3, SyncEvent.progress 2 3]) := by
    simp [uploadLoop, hua, hub, huc, Outbox.markAsSynced,
      Outbox.markSyncedInLocalStorage, Ne.symm hab, Ne.symm hac, hac, hbc]
  refine ⟨h1, ?_⟩
  have hpend : Outbox.getPendingMessages (Outbox.Storage.ls [a, b, c]) = [a, b, c] := by
    simp [Outbox.getPendingMessages, Outbox.getPendingLocalStorage, hsa, hsb, hsc]
  unfold syncPendingMessages
  rw [hpend]
  simp only [Bool.not_true, Bool.false_eq_true, if_false, List.isEmpty_cons,
    List.length_cons, List.length_nil]
  rw [h1]
  simp [Outbox.clearSyncedMessages, Outbox.clearSyncedLocalStorage, hsb]

/-- C3, witness: the concrete three-record scenario. -/
theorem c3_partial_failure_witness :
    syncPendingMessages true false none uploadOkNotM2 50
        (Outbox.Storage.ls [rec1, rec2, rec3]) =
      ⟨[SyncEvent.start, SyncEvent.progress 1 3, SyncEvent.progress 2 3,
        SyncEvent.complete 2 1], Outbox.Storage.ls [rec2], false, true⟩ :=
  (c3_partial_failure rec1 rec2 rec3 uploadOkNotM2 50 (by decide) (by decide)
    (by decide) (by decide) (by decide) (by decide) (by decide) (by decide)
    (by decide)).2

/-- C4, counterexample: a pass that starts while nothing is pending
emits `sync_start` and then returns early — no compaction, no
`sync_complete`, and no `sync_error` — contradicting the claim that
every started pass ends with compaction and `sync_complete` unless a
batch-level exception occurs.  (The Syncing flag is still cleared.) -/
theorem c4_counterexample :
    syncPendingMessages true false none uploadAlwaysOk 0 (Outbox.Storage.ls []) =
      ⟨[SyncEvent.start], Outbox.Storage.ls [], false, false⟩ := by
  decide

/-- C4, amended: every pass that starts (online, not already syncing)
emits `sync_start` first and clears the Syncing flag when it ends; if a
batch-level exception occurs the pass ends with `sync_error` and no
compaction; if nothing is pending the pass ends silently after
`sync_start`, without compaction or `sync_complete`; otherwise the pass
calls `compact()` and its last event is `sync_complete` with the synced
and failed counts. -/
theorem c4_pass_shape (online syncing : Bool) (fault : Option String)
    (uploadOk : String → Bool) (now : Nat) (st : Outbox.Storage)
    (hon : online = true) (hsy : syncing = false) :
    (syncPendingMessages online syncing fault uploadOk now st).events.head? =
      some SyncEvent.start ∧
    (syncPendingMessages online syncing fault uploadOk now st).isSyncing = false ∧
    (∀ e, fault = some e →
      (syncPendingMessages online syncing fault uploadOk now st).events =
        [SyncEvent.start, SyncEvent.syncError e] ∧
      (syncPendingMessages online syncing fault uploadOk now st).compactCalled = false) ∧
    (fault = none → Outbox.getPendingMessages st = [] →
      (syncPendingMessages online syncing fault uploadOk now st).events =
        [SyncEvent.start] ∧
      (syncPendingMessages online syncing fault uploadOk now st).compactCalled = false) ∧
    (fault = none → Outbox.getPendingMessages st ≠ [] →
      (syncPendingMessages online syncing fault uploadOk now st).compactCalled = true ∧
      ∃ sc fc, (syncPendingMessages online syncing fault uploadOk now st).events.getLast? =
        some (SyncEvent.complete sc fc)) := by
  subst hon hsy
  unfold syncPendingMessages
  simp only [Bool.not_true, Bool.false_eq_true, if_false]
  cases fault with
  | some e => simp
  | none =>
      by_cases hpend : Outbox.getPendingMessages st = []
      · simp [hpend]
      · have hne : (Outbox.getPendingMessages st).isEmpty = false := by
          cases hh : Outbox.getPendingMessages st with
          | nil => exact absurd hh hpend
          | cons x xs => rfl
        rcases huL : uploadLoop uploadOk now (Outbox.getPendingMessages st).length
            st 0 0 (Outbox.getPendingMessages st) with ⟨st1, synced, failed, evs⟩
        simp only [hne, Bool.false_eq_true, if_false, huL]
        refine ⟨by simp, by simp, by simp, by simp [hpend],
          fun _ _ => ⟨by simp, synced, failed, ?_⟩⟩
        show (SyncEvent.start :: (evs ++ [SyncEvent.complete synced failed])).getLast? = _
        rw [← List.cons_append]
        exact List.getLast?_concat _

/-- C4, witness: a faulted pass ends in `sync_error` without compaction;
a pass over one pending record compacts. -/
theorem c4_pass_shape_witness :
    (syncPendingMessages true false (some "down") uploadAlwaysOk 0
        (Outbox.Storage.ls [rec1])).events =
      [SyncEvent.start, SyncEvent.syncError "down"] ∧
    (syncPendingMessages true false none uploadAlwaysOk 0
        (Outbox.Storage.ls [rec1])).compactCalled = true :=
  ⟨((c4_pass_shape true false (some "down") uploadAlwaysOk 0
      (Outbox.Storage.ls [rec1]) rfl rfl).2.2.1 "down" rfl).1,
   ((c4_pass_shape true false none uploadAlwaysOk 0
      (Outbox.Storage.ls [rec1]) rfl rfl).2.2.2.2 rfl (by decide)).1⟩

/-! ### Helper lemmas for the dispatcher retry loop -/

/-- The loop makes at most `retries` fetch attempts. -/
theorem geminiLoop_attempts_le (resp : Nat → Gemini.GeminiResponse) :
    ∀ (r i d : Nat), (Gemini.geminiLoop resp i r d).attempts ≤ r := by
  intro r
  induction r with
  | zero => intro i d; exact Nat.le_refl 0
  | succ r ih =>
      intro i d
      unfold Gemini.geminiLoop
      cases resp i with
      | apiError c =>
          dsimp only
          by_cases hc : (c == 429) = true
          · rw [if_pos hc]
            exact Nat.succ_le_succ (ih (i + 1) (d * 2))
          · rw [if_neg hc]
            exact Nat.succ_le_succ (Nat.zero_le r)
      | fetchFailure => exact Nat.succ_le_succ (Nat.zero_le r)
      | success t => exact Nat.succ_le_succ (Nat.zero_le r)

/-- Every attempt after the first one was triggered by a rate-limit
response: if attempt `j + 1` happened, response `j` was a 429. -/
theorem geminiLoop_retry_only_429 (resp : Nat → Gemini.GeminiResponse) :
    ∀ (r i d j : Nat), j + 1 < (Gemini.geminiLoop resp i r d).attempts →
      resp (i + j) = Gemini.GeminiResponse.apiError 429 := by
  intro r
  induction r with
  | zero => intro i d j h; exact absurd h (by simp [Gemini.geminiLoop])
  | succ r ih =>
      intro i d j h
      unfold Gemini.geminiLoop at h
      cases hresp : resp i with
      | apiError c =>
          rw [hresp] at h
          dsimp only at h
          by_cases hc : (c == 429) = true
          · rw [if_pos hc] at h
            dsimp only at h
            cases j with
            | zero =>
                rw [Nat.add_zero, hresp, (by exact eq_of_beq hc : c = 429)]
            | succ j' =>
                have := ih (i + 1) (d * 2) j' (by omega)
                rw [show i + 1 + j' = i + (j' + 1) by omega] at this
                exact this
          · rw [if_neg hc] at h
            simp at h
      | fetchFailure =>
          rw [hresp] at h
          simp at h
      | success t =>
          rw [hresp] at h
          simp at h

/-- The backoff delays slept by the loop double starting from the
initial delay. -/
theorem geminiLoop_sleeps (resp : Nat → Gemini.GeminiResponse) :
    ∀ (r i d : Nat), (Gemini.geminiLoop resp i r d).sleeps =
      (List.range (Gemini.geminiLoop resp i r d).sleeps.length).map
        (fun k => d * 2 ^ k) := by
  intro r
  induction r with
  | zero => intro i d; rfl
  | succ r ih =>
      intro i d
      unfold Gemini.geminiLoop
      cases resp i with
      | apiError c =>
          dsimp only
          by_cases hc : (c == 429) = true
          · rw [if_pos hc]
            dsimp only
            have ihh := ih (i + 1) (d * 2)
            revert ihh
            generalize (Gemini.geminiLoop resp (i + 1) r (d * 2)).sleeps = tail
            intro ihh
            rw [List.length_cons, List.range_succ_eq_map, List.map_cons,
              List.map_map, pow_zero, Nat.mul_one]
            congr 1
            calc tail = (List.range tail.length).map (fun k => d * 2 * 2 ^ k) := ihh
              _ = (List.range tail.length).map ((fun k => d * 2 ^ k) ∘ Nat.succ) := by
                  apply List.map_congr_left
                  intro k _
                  show d * 2 * 2 ^ k = d * 2 ^ (k + 1)
                  rw [pow_succ]
                  ring
          · rw [if_neg hc]; rfl
      | fetchFailure => rfl
      | success t => rfl

/-- A run whose every attempt is rate-limited exhausts the budget and
returns `null`. -/
theorem geminiLoop_exhaust (resp : Nat → Gemini.GeminiResponse) :
    ∀ (r i d : Nat), (∀ k, k < r → resp (i + k) = Gemini.GeminiResponse.apiError 429) →
      (Gemini.geminiLoop resp i r d).result = none ∧
      (Gemini.geminiLoop resp i r d).attempts = r := by
  intro r
  induction r with
  | zero => intro i d _; exact ⟨rfl, rfl⟩
  | succ r ih =>
      intro i d hall
      have h0 : resp i = Gemini.GeminiResponse.apiError 429 := by
        simpa using hall 0 (Nat.succ_pos r)
      unfold Gemini.geminiLoop
      rw [h0]
      dsimp only
      rw [if_pos (by rfl : ((429 : Nat) == 429) = true)]
      dsimp only
      have hall' : ∀ k, k < r → resp (i + 1 + k) = Gemini.GeminiResponse.apiError 429 := by
        intro k hk
        have := hall (k + 1) (by omega)
        rwa [show i + (k + 1) = i + 1 + k by omega] at this
      have := ih (i + 1) (d * 2) hall'
      exact ⟨this.1, by rw [this.2]⟩

/-- A non-rate-limit failure at attempt `j` (after `j` rate-limited
attempts) stops the loop at once with a `null` result. -/
theorem geminiLoop_fatal (resp : Nat → Gemini.GeminiResponse) :
    ∀ (r i d j : Nat), j < r →
      (∀ k, k < j → resp (i + k) = Gemini.GeminiResponse.apiError 429) →
      Gemini.isFatal (resp (i + j)) = true →
      (Gemini.geminiLoop resp i r d).result = none ∧
      (Gemini.geminiLoop resp i r d).attempts = j + 1 := by
  intro r
  induction r with
  | zero => intro i d j hj _ _; exact absurd hj (Nat.not_lt_zero j)
  | succ r ih =>
      intro i d j hj hpre hfat
      cases j with
      | zero =>
          rw [Nat.add_zero] at hfat
          unfold Gemini.geminiLoop
          cases hresp : resp i with
          | apiError c =>
              rw [hresp] at hfat
              simp [Gemini.isFatal] at hfat
              dsimp only
              rw [if_neg (by simp [hfat])]
              exact ⟨rfl, rfl⟩
          | fetchFailure => exact ⟨rfl, rfl⟩
          | success t =>
              rw [hresp] at hfat
              simp [Gemini.isFatal] at hfat
      | succ j' =>
          have h0 : resp i = Gemini.GeminiResponse.apiError 429 := by
            simpa using hpre 0 (Nat.succ_pos j')
          unfold Gemini.geminiLoop
          rw [h0]
          dsimp only
          rw [if_pos (by rfl : ((429 : Nat) == 429) = true)]
          dsimp only
          have hpre' : ∀ k, k < j' → resp (i + 1 + k) = Gemini.GeminiResponse.apiError 429 := by
            intro k hk
            have := hpre (k + 1) (by omega)
            rwa [show i + (k + 1) = i + 1 + k by omega] at this
          have hfat' : Gemini.isFatal (resp (i + 1 + j')) = true := by
            rwa [show i + (j' + 1) = i + 1 + j' by omega] at hfat
          have := ih (i + 1) (d * 2) j' (by omega) hpre' hfat'
          exact ⟨this.1, by rw [this.2]⟩

/-- C9: for every response sequence, `performGeminiRequest` makes at
most 3 fetch attempts; every retry (attempt beyond the first) is
triggered only by an explicit 429 rate-limit response; the backoff
delays double starting at 2000 ms; three rate-limited attempts exhaust
the budget and resolve `null` rather than rejecting; any other API or
transport error resolves `null` immediately without a retry; and a
thrown request is resolved by `processQueue` as `null`, never as a
rejection. -/
theorem c9_dispatcher_retry (resp : Nat → Gemini.GeminiResponse) :
    (Gemini.performGeminiRequest resp).attempts ≤ 3 ∧
    (∀ j, j + 1 < (Gemini.performGeminiRequest resp).attempts →
      resp j = Gemini.GeminiResponse.apiError 429) ∧
    ((Gemini.performGeminiRequest resp).sleeps =
      (List.range (Gemini.performGeminiRequest resp).sleeps.length).map
        (fun k => 2000 * 2 ^ k)) ∧
    ((∀ k, k < 3 → resp k = Gemini.GeminiResponse.apiError 429) →
      (Gemini.performGeminiRequest resp).result = none ∧
      (Gemini.performGeminiRequest resp).attempts = 3) ∧
    (∀ j, j < 3 → (∀ k, k < j → resp k = Gemini.GeminiResponse.apiError 429) →
      Gemini.isFatal (resp j) = true →
      (Gemini.performGeminiRequest resp).result = none ∧
      (Gemini.performGeminiRequest resp).attempts = j + 1) ∧
    (∀ e : String, Gemini.processQueueResolve (Except.error e) = none) := by
  refine ⟨geminiLoop_attempts_le resp 3 0 2000, ?_, geminiLoop_sleeps resp 3 0 2000,
    ?_, ?_, fun _ => rfl⟩
  · intro j hj
    have := geminiLoop_retry_only_429 resp 3 0 2000 j hj
    rwa [Nat.zero_add] at this
  · intro hall
    exact geminiLoop_exhaust resp 3 0 2000 (fun k hk => by simpa using hall k hk)
  · intro j hj hpre hfat
    exact geminiLoop_fatal resp 3 0 2000 j hj
      (fun k hk => by simpa using hpre k hk) (by simpa using hfat)

/-- C9, witness: an always-rate-limited stream resolves `null` after 3
attempts; an immediately-throwing stream resolves `null` after a single
attempt. -/
theorem c9_dispatcher_retry_witness :
    (Gemini.performGeminiRequest allRateLimited).result = none ∧
    (Gemini.performGeminiRequest allRateLimited).attempts = 3 ∧
    (Gemini.performGeminiRequest allFetchFail).result = none ∧
    (Gemini.performGeminiRequest allFetchFail).attempts = 1 :=
  ⟨((c9_dispatcher_retry allRateLimited).2.2.2.1 (fun _ _ => rfl)).1,
   ((c9_dispatcher_retry allRateLimited).2.2.2.1 (fun _ _ => rfl)).2,
   ((c9_dispatcher_retry allFetchFail).2.2.2.2.1 0 (by omega)
     (fun k hk => absurd hk (Nat.not_lt_zero k)) rfl).1,
   ((c9_dispatcher_retry allFetchFail).2.2.2.2.1 0 (by omega)
     (fun k hk => absurd hk (Nat.not_lt_zero k)) rfl).2⟩

end GoogleMesh
